import Mathlib

/-!
Verification of the modification-capture pipeline of the `audriver` SQL audit
driver.  Pure functions of the Go source (`filter.go`, `table_action.go`,
`builder.go`, `internal/formatter/sql.go`, `internal/postgres`) are embedded as
Lean functions over `List Char`; the stateful connection/transaction code of
`conn.go` is embedded as state-passing functions that also return the list of
driver-level events (statement executions, commit, rollback) issued against the
wrapped connection or transaction.  The external PostgreSQL parser
(`pg_query.Parse`) is an injected oracle, as the source only consumes it at its
interface boundary.  Loops of the source whose termination is by consumption of
the input are embedded with an explicit fuel argument that is always called
with fuel strictly larger than the maximal number of iterations, so every
function is structurally recursive and evaluates by kernel reduction.
-/

/-- Whitespace class of the Go regexp escape used by the source
(space, tab, newline, carriage return, form feed). -/
def goWS (c : Char) : Bool :=
  c = ' ' || c = '\t' || c = '\n' || c = '\r' || c = Char.ofNat 12

/-- The single-quote character. -/
def squote : Char := Char.ofNat 39

/-- The backquote character appearing in the table-extraction regexps. -/
def btick : Char := Char.ofNat 96

/-- Word characters for the regexp word-boundary assertions of the source. -/
def isWordChar (c : Char) : Bool :=
  c.isAlpha || c.isDigit || c = '_'

/-! ## `filter.go` — the table filter chain -/

/-- `TableFilter` (source `filter.go`): a predicate over a table name.
`TableFilterFunc` makes any such function a filter, so the Lean embedding
identifies the two. -/
abbrev TableFilter : Type := String → Bool

/-- `TableFilters` (source `filter.go`): an ordered collection of filters. -/
abbrev TableFilters : Type := List TableFilter

/-- Scanner for the closing bracket of a glob character class: splits the
pattern text after the opening bracket into the class content (escape pairs
kept intact) and the text after the closing bracket; `none` when the class is
unterminated, which Go reports as a bad pattern and the source discards,
treating the name as unmatched. -/
def classSplit : List Char → Option (List Char × List Char)
  | [] => none
  | c :: rest =>
    if c = ']' then some ([], rest)
    else if c = '\\' then
      match rest with
      | [] => none
      | d :: rest2 =>
        match classSplit rest2 with
        | none => none
        | some (content, after) => some (c :: d :: content, after)
    else
      match classSplit rest with
      | none => none
      | some (content, after) => some (c :: content, after)

/-- Parser for the content of a glob character class (the text between the
brackets): a sequence of single characters or low-high ranges, with backslash
escapes; an empty class, a range starting with a dash, or a dangling escape is
malformed (`none`).  The fuel always exceeds the content length. -/
def parseClassContent : Nat → List Char → List (Char × Char) → Option (List (Char × Char))
  | _, [], acc => if acc.isEmpty then none else some acc.reverse
  | 0, _ :: _, _ => none
  | fuel + 1, c :: rest, acc =>
    if c = '\\' then
      match rest with
      | [] => none
      | lo :: rest1 =>
        match rest1 with
        | '-' :: rest2 =>
          match rest2 with
          | [] => none
          | '\\' :: rest3 =>
            match rest3 with
            | [] => none
            | hi :: rest4 => parseClassContent fuel rest4 ((lo, hi) :: acc)
          | hi :: rest3 =>
            if hi = '-' || hi = ']' then none
            else parseClassContent fuel rest3 ((lo, hi) :: acc)
        | _ => parseClassContent fuel rest1 ((lo, lo) :: acc)
    else if c = '-' then none
    else
      match rest with
      | '-' :: rest2 =>
        match rest2 with
        | [] => none
        | '\\' :: rest3 =>
          match rest3 with
          | [] => none
          | hi :: rest4 => parseClassContent fuel rest4 ((c, hi) :: acc)
        | hi :: rest3 =>
          if hi = '-' || hi = ']' then none
          else parseClassContent fuel rest3 ((c, hi) :: acc)
      | _ => parseClassContent fuel rest ((c, c) :: acc)

/-- Whether a character falls in one of the parsed ranges. -/
def inRanges (ranges : List (Char × Char)) (c : Char) : Bool :=
  ranges.any fun r => decide (r.1 ≤ c) && decide (c ≤ r.2)

/-- Character-class step of the glob matcher. -/
def classMatch (neg : Bool) (content : List Char) (c : Char) : Bool :=
  match parseClassContent (content.length + 1) content [] with
  | none => false
  | some ranges => inRanges ranges c != neg

/-- Fuel-indexed glob matching; the fuel always exceeds the recursion depth,
which is bounded by the combined length of pattern and name. -/
def globMatchF : Nat → List Char → List Char → Bool
  | 0, _, _ => false
  | fuel + 1, p, s =>
    match p with
    | [] => s.isEmpty
    | c :: p1 =>
      if c = '*' then
        globMatchF fuel p1 s ||
          (match s with
           | [] => false
           | d :: s2 => !(d = '/') && globMatchF fuel ('*' :: p1) s2)
      else if c = '?' then
        match s with
        | [] => false
        | d :: s2 => !(d = '/') && globMatchF fuel p1 s2
      else if c = '\\' then
        match p1, s with
        | e :: p2, d :: s2 => e = d && globMatchF fuel p2 s2
        | _, _ => false
      else if c = '[' then
        match s with
        | [] => false
        | d :: s2 =>
          match classSplit (if p1.head? == some '^' then p1.tail else p1) with
          | none => false
          | some (content, p2) =>
            classMatch (p1.head? == some '^') content d && globMatchF fuel p2 s2
      else
        match s with
        | [] => false
        | d :: s2 => c = d && globMatchF fuel p1 s2

/-- Shell glob matching.  Modelled from the documented semantics of the Go
standard library `path/filepath.Match` (an external collaborator of the
source): a star matches any run of non-separator characters, a question mark
any single non-separator character, a bracketed character class possibly
negated with a caret, a backslash-escaped literal character, and any other
pattern character itself; malformed patterns match nothing. -/
def globMatch (p s : List Char) : Bool :=
  globMatchF (p.length + s.length + 1) p s

/-- `filepath.Match` at the `String` level, errors collapsed to `false` as the
source does when it discards the second return value. -/
def filepathMatch (pattern tableName : String) : Bool :=
  globMatch pattern.data tableName.data

/-- `NewExcludePatternFilter` (source `filter.go`): excludes tables matching
any of the provided glob patterns. -/
def NewExcludePatternFilter (patterns : List String) : TableFilter :=
  fun tableName => !(patterns.any fun pattern => filepathMatch pattern tableName)

/-- `NewExcludePrefixFilter` (source `filter.go`): excludes tables whose names
start with any of the provided prefixes. -/
def NewExcludePrefixFilter (prefixes : List String) : TableFilter :=
  fun tableName => !(prefixes.any fun p => p.data.isPrefixOf tableName.data)

/-- `NewIncludePatternFilter` (source `filter.go`): includes only tables
matching any of the provided glob patterns. -/
def NewIncludePatternFilter (patterns : List String) : TableFilter :=
  fun tableName => patterns.any fun pattern => filepathMatch pattern tableName

/-- `TableFilters.ShouldLog` (source `filter.go`): the chain accepts a table
iff every member filter accepts it (the loop returns `false` at the first
rejecting filter and `true` once all have passed). -/
def ShouldLog (filters : TableFilters) (tableName : String) : Bool :=
  filters.all fun f => f tableName

/-! ## `internal/formatter/sql.go` and `internal/postgres` — literal interpolation -/

/-- A timestamp as the source formats it (`2006-01-02 15:04:05-07:00`):
date and time fields plus a signed zone offset in minutes. -/
structure GoTime where
  year : Nat
  month : Nat
  day : Nat
  hour : Nat
  minute : Nat
  second : Nat
  zoneNeg : Bool
  zoneH : Nat
  zoneM : Nat

deriving DecidableEq

/-- A driver argument value, one constructor per arm of the type switch in
`formatter.SQLValue`: `nil`, `string`, `[]byte`, `time.Time`, `fmt.Stringer`
(carrying the result of its `String` method), and the default arm (carrying
the `%v` rendering Go would produce).  The constructors are disjoint, so the
switch order of the source is immaterial except that `time.Time` is tested
before `fmt.Stringer`, which the separate constructors reflect. -/
inductive GoValue where
  | null
  | str (s : String)
  | bytes (bs : List Nat)
  | timeV (t : GoTime)
  | stringer (s : String)
  | other (rendered : String)

deriving DecidableEq

/-- `driver.NamedValue`: an argument with optional name, ordinal and value. -/
structure NamedValue where
  name : String
  ordinal : Nat
  value : GoValue

deriving DecidableEq

/-- `escapeString` (source `formatter/sql.go`): double every single quote.
`strings.ReplaceAll` with a single-character pattern is exactly this
character-wise doubling. -/
def escapeString (s : List Char) : List Char :=
  s.flatMap fun c => if c = squote then [c, c] else [c]

/-- Lower-case hex digit. -/
def hexDigit (n : Nat) : Char :=
  if n < 10 then Char.ofNat (48 + n) else Char.ofNat (87 + n)

/-- Two-digit lower-case hex rendering of one byte, as `%x` renders each byte
of a `[]byte`. -/
def hexByte (b : Nat) : List Char :=
  [hexDigit (b / 16 % 16), hexDigit (b % 16)]

/-- Decimal rendering padded to two digits. -/
def pad2 (n : Nat) : List Char :=
  if n < 10 then '0' :: (Nat.repr n).data else (Nat.repr n).data

/-- Decimal rendering padded to four digits. -/
def pad4 (n : Nat) : List Char :=
  if n < 10 then '0' :: '0' :: '0' :: (Nat.repr n).data
  else if n < 100 then '0' :: '0' :: (Nat.repr n).data
  else if n < 1000 then '0' :: (Nat.repr n).data
  else (Nat.repr n).data

/-- The `2006-01-02 15:04:05-07:00` layout of the source. -/
def formatTime (t : GoTime) : List Char :=
  pad4 t.year ++ '-' :: pad2 t.month ++ '-' :: pad2 t.day ++
    ' ' :: pad2 t.hour ++ ':' :: pad2 t.minute ++ ':' :: pad2 t.second ++
    (if t.zoneNeg then '-' else '+') :: pad2 t.zoneH ++ ':' :: pad2 t.zoneM

/-- `SQLValue` (source `formatter/sql.go`): literal rendering of one driver
argument.  Note the default arm quotes but does not escape. -/
def SQLValue (v : GoValue) : List Char :=
  match v with
  | .null => "NULL".data
  | .str s => squote :: (escapeString s.data ++ [squote])
  | .bytes bs => squote :: (bs.flatMap hexByte ++ [squote])
  | .timeV t => squote :: (formatTime t ++ [squote])
  | .stringer s => squote :: (escapeString s.data ++ [squote])
  | .other r => squote :: (r.data ++ [squote])

/-- Positions where the placeholder regexp (a dollar sign followed by one or
more digits) can start a match: exactly the indices holding a dollar sign
whose successor is a digit.  Since a match consumes the maximal digit run and
digits can neither start a match nor contain a dollar sign, the non-overlapping
leftmost matches Go's `FindAllStringIndex` returns start exactly at these
positions, in increasing order. -/
def phStarts (l : List Char) : List Nat :=
  (List.range l.length).filter fun i =>
    decide (l[i]? = some '$') && ((l[i + 1]?).map Char.isDigit).getD false

/-- Length of the digit run starting at position `i`. -/
def digitRunLen (l : List Char) (i : Nat) : Nat :=
  ((l.drop i).takeWhile Char.isDigit).length

/-- The `(start, end)` index pairs of all placeholder matches, as
`FindAllStringIndex` returns them. -/
def phMatches (l : List Char) : List (Nat × Nat) :=
  (phStarts l).map fun i => (i, i + 1 + digitRunLen l (i + 1))

/-- The builder loop of `InterpolateSQL` (source `internal/postgres`): walk the
matches keeping the cursor `last` and the argument index `i`; emit the text
between the cursor and the match, then the rendered argument — or a question
mark once the arguments run out — and continue after the match; finally emit
the tail after the last match. -/
def interpLoop (l : List Char) (args : List NamedValue) :
    List (Nat × Nat) → Nat → Nat → List Char
  | [], last, _ => l.drop last
  | (s, e) :: ms, last, i =>
    (l.drop last).take (s - last) ++
      (match args[i]? with
       | some a => SQLValue a.value
       | none => ['?']) ++
      interpLoop l args ms e (i + 1)

/-- `InterpolateSQL` (source `internal/postgres`): replace the dollar
placeholders with rendered arguments; with no matches or no arguments the
query is returned unchanged. -/
def InterpolateSQL (query : String) (args : List NamedValue) : String :=
  let l := query.data
  let ms := phMatches l
  if ms.isEmpty || args.isEmpty then query
  else ⟨interpLoop l args ms 0 0⟩

/-- The number of placeholder tokens occurring in a string. -/
def numPlaceholders (s : String) : Nat :=
  (phStarts s.data).length

/-! ## Placeholder tokens in interpolated text -/

/-- A placeholder token starts at position `i` of `l`: a dollar sign followed
by a digit. -/
def pairAt (l : List Char) (i : Nat) : Prop :=
  l[i]? = some '$' ∧ ∃ d, l[i + 1]? = some d ∧ d.isDigit = true

/-- No placeholder token occurs anywhere in `l`. -/
def PHFree (l : List Char) : Prop := ∀ i, ¬ pairAt l i

/-- Specification-style rendering of interpolation: walk the placeholder start
positions in text order, emitting the text between placeholders and the next
pending literal (or a question mark once the literals run out). -/
def interleaveSpec (l : List Char) : List Nat → Nat → List (List Char) → List Char
  | [], last, _ => l.drop last
  | j :: rest, last, lits =>
    (l.drop last).take (j - last) ++ lits.headD ['?'] ++
      interleaveSpec l rest (j + 1 + digitRunLen l (j + 1)) lits.tail

/-! ## `table_action.go` — action and table extraction -/

/-- `DatabaseModificationAction` (source, data model file): closed action
enumeration. -/
inductive DatabaseModificationAction where
  | insert
  | update
  | delete

deriving DecidableEq

/-- `DatabaseModificationAction.String` of the source. -/
def DatabaseModificationAction.toGoString : DatabaseModificationAction → String
  | .insert => "insert"
  | .update => "update"
  | .delete => "delete"

/-- `tableAction` (source `table_action.go`). -/
structure TableAction where
  table : String
  action : DatabaseModificationAction

deriving DecidableEq

/-- The optional opening quote class of the extraction regexps: backquote,
double quote or opening bracket. -/
def isOpenQuote (c : Char) : Bool :=
  c = btick || c = '"' || c = '['

/-- The captured identifier class of the extraction regexps: anything except
backquote, double quote, closing bracket and whitespace. -/
def isCaptureChar (c : Char) : Bool :=
  !(c = btick || c = '"' || c = ']' || goWS c)

/-- Case-insensitive match of a lower-case keyword at the head of the input;
returns the rest on success. -/
def matchKeyword : List Char → List Char → Option (List Char)
  | [], s => some s
  | _ :: _, [] => none
  | k :: ks, c :: cs => if c.toLower = k then matchKeyword ks cs else none

/-- One-or-more whitespace characters; returns the input after the maximal
whitespace run (the regexp's greedy run, which is equivalent here because the
following token never starts with whitespace). -/
def matchWSPlus : List Char → Option (List Char)
  | [] => none
  | c :: cs => if goWS c then some (cs.dropWhile goWS) else none

/-- The optional opening quote followed by the captured identifier run.  When
an opening quote is consumed but no capture character follows, the regexp
backtracks over the optional quote; of the quote class only the opening
bracket is itself a capture character, which the second attempt covers. -/
def matchCapture (s : List Char) : Option (List Char) :=
  match s with
  | [] => none
  | c :: rest =>
    if isOpenQuote c then
      let t := rest.takeWhile isCaptureChar
      if t.isEmpty then
        let t2 := s.takeWhile isCaptureChar
        if t2.isEmpty then none else some t2
      else some t
    else
      let t := s.takeWhile isCaptureChar
      if t.isEmpty then none else some t

/-- Whole-pattern match at the current position: the first keyword, mandatory
whitespace, the optional second keyword with its whitespace, then the
captured table identifier. -/
def matchTableAt (kw1 : List Char) (kw2 : Option (List Char)) (s : List Char) :
    Option (List Char) :=
  match matchKeyword kw1 s with
  | none => none
  | some r1 =>
    match matchWSPlus r1 with
    | none => none
    | some r2 =>
      match kw2 with
      | none => matchCapture r2
      | some k2 =>
        match matchKeyword k2 r2 with
        | none => none
        | some r3 =>
          match matchWSPlus r3 with
          | none => none
          | some r4 => matchCapture r4

/-- Unanchored leftmost search of the extraction pattern, honouring the word
boundary before the keyword: try every position whose predecessor is not a
word character, left to right. -/
def findTable (kw1 : List Char) (kw2 : Option (List Char)) :
    Option Char → List Char → Option (List Char)
  | _, [] => none
  | prev, c :: rest =>
    match (if (prev.map isWordChar).getD false then none
           else matchTableAt kw1 kw2 (c :: rest)) with
    | some t => some t
    | none => findTable kw1 kw2 (some c) rest

/-- Leftmost capture of `insertRegexp` (source `table_action.go`). -/
def findInsertTable (sql : String) : Option String :=
  (findTable "insert".data (some "into".data) none sql.data).map String.mk

/-- Leftmost capture of `updateRegexp` (source `table_action.go`). -/
def findUpdateTable (sql : String) : Option String :=
  (findTable "update".data none none sql.data).map String.mk

/-- Leftmost capture of `deleteRegexp` (source `table_action.go`). -/
def findDeleteTable (sql : String) : Option String :=
  (findTable "delete".data (some "from".data) none sql.data).map String.mk

deriving instance DecidableEq for Except

/-- `parseTableAction` (source `table_action.go`): try insert, update, delete
in that order; error when none of the three patterns occurs. -/
def parseTableAction (sql : String) : Except String TableAction :=
  match findInsertTable sql with
  | some t => .ok ⟨t, .insert⟩
  | none =>
    match findUpdateTable sql with
    | some t => .ok ⟨t, .update⟩
    | none =>
      match findDeleteTable sql with
      | some t => .ok ⟨t, .delete⟩
      | none => .error ("could not parse action from SQL: " ++ sql)

/-! ## `builder.go` — classification and record building -/

/-- The `TrimLeft` cutset of `stripLeading` (space, tab, carriage return,
newline; narrower than the regexp whitespace class). -/
def goTrimWS (c : Char) : Bool :=
  c = ' ' || c = '\t' || c = '\r' || c = '\n'

/-- Text after the first newline, `none` when there is none (`strings.Index`
of the line-comment loop). -/
def afterNewline : List Char → Option (List Char)
  | [] => none
  | '\n' :: rest => some rest
  | _ :: rest => afterNewline rest

/-- Text after the first block-comment terminator, `none` when there is none. -/
def afterBlockEnd : List Char → Option (List Char)
  | [] => none
  | '*' :: '/' :: rest => some rest
  | _ :: rest => afterBlockEnd rest

/-- The line-comment loop of `stripLeading`: while the text starts with two
dashes, cut to after the newline (the whole text is consumed when no newline
follows) and trim; fuel always exceeds the iteration count, each iteration
consuming at least three characters. -/
def stripLineComments : Nat → List Char → List Char
  | 0, s => s
  | fuel + 1, s =>
    match s with
    | '-' :: '-' :: _ =>
      match afterNewline s with
      | none => []
      | some rest => stripLineComments fuel (rest.dropWhile goTrimWS)
    | _ => s

/-- The block-comment loop of `stripLeading`: while the text starts with a
block-comment opener, cut to after the first terminator found beyond the
opener (the whole text is consumed when unterminated) and trim. -/
def stripBlockComments : Nat → List Char → List Char
  | 0, s => s
  | fuel + 1, s =>
    match s with
    | '/' :: '*' :: rest =>
      match afterBlockEnd rest with
      | none => []
      | some r => stripBlockComments fuel (r.dropWhile goTrimWS)
    | _ => s

/-- Closing parenthesis search of the simple WITH-CTE regexp: after one
mandatory whitespace character the pattern needs at least one non-semicolon
character and then the first closing parenthesis, with no semicolon before
it. -/
def findCTEGo : List Char → Option (List Char)
  | [] => none
  | ')' :: rest => some rest
  | ';' :: _ => none
  | _ :: rest => findCTEGo rest

def findCTEClose : List Char → Option (List Char)
  | [] => none
  | c :: rest => if c = ';' then none else findCTEGo rest

/-- The anchored WITH-CTE removal of `stripLeading`: optional whitespace, the
word WITH case-insensitively, at least one whitespace character, a shortest
non-semicolon run up to a closing parenthesis, and trailing whitespace; when
the pattern does not match, the text is unchanged. -/
def stripWithCTE (s : List Char) : List Char :=
  let t := s.dropWhile goWS
  match matchKeyword "with".data t with
  | none => s
  | some u =>
    match u with
    | [] => s
    | c :: rest =>
      if goWS c then
        match findCTEClose rest with
        | none => s
        | some r => r.dropWhile goWS
      else s

/-- `stripLeading` (source `builder.go`): leading whitespace, then all leading
line comments, then all leading block comments, then a simple leading
WITH-CTE. -/
def stripLeading (sql : String) : String :=
  let s0 := sql.data.dropWhile goTrimWS
  let s1 := stripLineComments (s0.length + 1) s0
  let s2 := stripBlockComments (s1.length + 1) s1
  String.mk (stripWithCTE s2)

/-- Keyword match with a trailing word boundary: the next character, if any,
is not a word character. -/
def keywordWithBoundary (kw : List Char) (s : List Char) : Bool :=
  match matchKeyword kw s with
  | none => false
  | some [] => true
  | some (c :: _) => !isWordChar c

/-- `quickDMLRegexp` (source `builder.go`): optional leading whitespace then
INSERT, UPDATE or DELETE case-insensitively as a whole word. -/
def quickDMLMatch (s : List Char) : Bool :=
  let t := s.dropWhile goWS
  keywordWithBoundary "insert".data t || keywordWithBoundary "update".data t ||
    keywordWithBoundary "delete".data t

/-- A parsed statement's top node kind, at the granularity the source
inspects: insert, update and delete statements versus any other node. -/
inductive PgStmt where
  | insertStmt
  | updateStmt
  | deleteStmt
  | otherStmt

deriving DecidableEq

/-- Interface boundary of the external PostgreSQL parser `pg_query.Parse`:
`none` models a parse error, `some` the list of parsed statements. -/
abbrev PgParse := String → Option (List PgStmt)

/-- Whether a statement node is one of the three DML node kinds. -/
def isDmlStmt : PgStmt → Bool
  | .insertStmt => true
  | .updateStmt => true
  | .deleteStmt => true
  | .otherStmt => false

/-- The direct-parse `isDML` variant (source `builder.go`, first variant):
parse the statement; a parse error or an empty statement list is not DML;
otherwise the loop reports whether any statement is an insert, update or
delete node. -/
def isDMLDirect (parse : PgParse) (sql : String) : Bool :=
  match parse sql with
  | none => false
  | some stmts => if stmts.isEmpty then false else stmts.any isDmlStmt

/-- The quick-check `isDML` variant (source `builder.go`, second variant):
reject when the stripped text is empty or fails the quick INSERT/UPDATE/DELETE
prefix check, then parse exactly as the direct variant does. -/
def isDMLQuick (parse : PgParse) (sql : String) : Bool :=
  let normalized := stripLeading sql
  if normalized = "" then false
  else if !quickDMLMatch normalized.data then false
  else
    match parse sql with
    | none => false
    | some stmts => if stmts.isEmpty then false else stmts.any isDmlStmt

/-- `DatabaseModification` (source data model file): the audit record. -/
structure DatabaseModification where
  id : String
  operatorID : String
  executionID : String
  tableName : String
  action : DatabaseModificationAction
  sql : String
  modifiedAt : GoTime

deriving DecidableEq

/-- The injected strategies and ambient responses a `databaseModificationBuilder`
consumes: the external parser, the identifier generator's next value, the
operator and execution extractors over the ambient context, the filter chain,
and the current time. -/
structure BuilderDeps (Ctx : Type) where
  parse : PgParse
  idGenerator : Unit → String
  operatorIDExtractor : Ctx → Except String String
  executionIDExtractor : Ctx → Except String String
  tableFilters : TableFilters
  now : GoTime

/-- `databaseModificationBuilder.build` (source `builder.go`): classify (not
DML yields no record and no error), extract table and action, extract the
operator and execution identifiers, interpolate, and assemble the record.  The
Go pair of a nullable record and an error is `Except` of an `Option`. -/
def build {Ctx : Type} (deps : BuilderDeps Ctx) (ctx : Ctx)
    (sql : String) (args : List NamedValue) :
    Except String (Option DatabaseModification) :=
  if !isDMLQuick deps.parse sql then .ok none
  else
    match parseTableAction sql with
    | .error e => .error ("failed to parse action and table from SQL: " ++ e)
    | .ok ta =>
      match deps.operatorIDExtractor ctx with
      | .error e => .error ("failed to extract operator ID: " ++ e)
      | .ok opID =>
        match deps.executionIDExtractor ctx with
        | .error e => .error ("failed to extract execution ID: " ++ e)
        | .ok execID =>
          .ok (some ⟨deps.idGenerator (), opID, execID, ta.table, ta.action,
            InterpolateSQL sql args, deps.now⟩)

/-- `databaseModificationBuilder.isFiltered` (source `builder.go`): delegates
to the filter chain; the source defines it but `build` never invokes it. -/
def isFiltered {Ctx : Type} (deps : BuilderDeps Ctx) (tableName : String) : Bool :=
  ShouldLog deps.tableFilters tableName

/-! ## `conn.go` — connection decorator and transactional buffering -/

/-- Driver-level events issued against the wrapped connection or the wrapped
transaction. -/
inductive DriverEvent where
  | exec (query : String) (args : List NamedValue)
  | commit
  | rollback

deriving DecidableEq

/-- Response behaviour of the wrapped connection or transaction to statement
execution (the opaque result collapsed to `Unit`); the embedding assumes the
execution capability is present, as the source surfaces a capability error
otherwise and none of the verified paths depends on that branch. -/
abbrev ExecOracle := String → List NamedValue → Except String Unit

/-- The audit insert statement of `Conn.logModification` and `loggingTx.log`. -/
def auditInsertHead : String :=
  "INSERT INTO database_modifications (id, operator_id, execution_id, table_name, action, sql, modified_at) VALUES "

/-- The direct (non-transactional) audit insert statement. -/
def auditInsertQuery : String :=
  auditInsertHead ++ "($1, $2, $3, $4, $5, $6, $7)"

/-- The named argument list of the direct audit insert. -/
def directAuditArgs (m : DatabaseModification) : List NamedValue :=
  [⟨"id", 0, .str m.id⟩, ⟨"operator_id", 0, .str m.operatorID⟩,
   ⟨"execution_id", 0, .str m.executionID⟩, ⟨"table_name", 0, .str m.tableName⟩,
   ⟨"action", 0, .str m.action.toGoString⟩, ⟨"sql", 0, .str m.sql⟩,
   ⟨"modified_at", 0, .timeV m.modifiedAt⟩]

/-- One parenthesized tuple of the batch insert for the record at index `i`,
parameter-numbered sequentially across the whole batch. -/
def valuesClause (i : Nat) : String :=
  "($" ++ Nat.repr (i * 7 + 1) ++ ", $" ++ Nat.repr (i * 7 + 2) ++
    ", $" ++ Nat.repr (i * 7 + 3) ++ ", $" ++ Nat.repr (i * 7 + 4) ++
    ", $" ++ Nat.repr (i * 7 + 5) ++ ", $" ++ Nat.repr (i * 7 + 6) ++
    ", $" ++ Nat.repr (i * 7 + 7) ++ ")"

/-- The batched audit insert statement of `loggingTx.log`. -/
def batchQuery (mods : List DatabaseModification) : String :=
  auditInsertHead ++
    String.intercalate ", " ((List.range mods.length).map valuesClause)

/-- The seven ordinal-numbered arguments contributed by the record at
index `i` of the batch. -/
def modBatchArgs (i : Nat) (m : DatabaseModification) : List NamedValue :=
  [⟨"", i * 7 + 1, .str m.id⟩, ⟨"", i * 7 + 2, .str m.operatorID⟩,
   ⟨"", i * 7 + 3, .str m.executionID⟩, ⟨"", i * 7 + 4, .str m.tableName⟩,
   ⟨"", i * 7 + 5, .str m.action.toGoString⟩, ⟨"", i * 7 + 6, .str m.sql⟩,
   ⟨"", i * 7 + 7, .timeV m.modifiedAt⟩]

/-- The argument list of the batched audit insert, all records in buffer
order. -/
def batchArgs (mods : List DatabaseModification) : List NamedValue :=
  mods.enum.flatMap fun p => modBatchArgs p.1 p.2

/-- `loggingTx.log` (source `conn.go`): nothing to do on an empty list,
otherwise one batched insert on the wrapped transaction; its failure is
wrapped.  The secondary best-effort logger invoked after a successful batch is
observability only (a no-op by default) and is not part of the driver-level
event trace. -/
def txLog (oracle : ExecOracle) (mods : List DatabaseModification) :
    Except String Unit × List DriverEvent :=
  if mods.isEmpty then (.ok (), [])
  else
    match oracle (batchQuery mods) (batchArgs mods) with
    | .error e =>
      (.error ("failed to batch insert database modifications: " ++ e),
        [.exec (batchQuery mods) (batchArgs mods)])
    | .ok _ => (.ok (), [.exec (batchQuery mods) (batchArgs mods)])

/-- `loggingTx.Commit` (source `conn.go`): drain the buffer; flush a non-empty
buffer through `loggingTx.log` on the same wrapped transaction; on flush
failure roll the wrapped transaction back and surface the combined error; then
honour a cancelled context by rolling back; finally invoke the wrapped commit.
The returned triple is the call's result, the events issued on the wrapped
transaction, and the buffer as the call leaves it. -/
def txCommit (buf : List DatabaseModification) (ctxErr : Option String)
    (oracle : ExecOracle) (commitRes rollbackRes : Except String Unit) :
    Except String Unit × List DriverEvent × List DatabaseModification :=
  let flush : Except String Unit × List DriverEvent :=
    if buf.isEmpty then (.ok (), [])
    else txLog oracle buf
  match flush with
  | (.error e, ev) =>
    match rollbackRes with
    | .error rbe =>
      (.error ("failed to rollback after audriver logging error: " ++ rbe ++
        " (original error: " ++ e ++ ")"), ev ++ [.rollback], [])
    | .ok _ =>
      (.error ("failed to flush logs in transaction: " ++ e), ev ++ [.rollback], [])
  | (.ok _, ev) =>
    match ctxErr with
    | some e => (.error e, ev ++ [.rollback], [])
    | none => (commitRes, ev ++ [.commit], [])

/-- `loggingTx.Rollback` (source `conn.go`): drain and discard the buffer,
then roll back the wrapped transaction. -/
def txRollback (buf : List DatabaseModification) (rollbackRes : Except String Unit) :
    Except String Unit × List DriverEvent × List DatabaseModification :=
  (rollbackRes, [.rollback], [])

/-- `txConn.ExecContext` (source `conn.go`): in read-only mode pass through;
otherwise build first (a build failure aborts before anything executes), then
execute the underlying statement, and only on its success append the built
record, if any, to the buffer. -/
def txExec {Ctx : Type} (deps : BuilderDeps Ctx) (ctx : Ctx) (readOnly : Bool)
    (sql : String) (args : List NamedValue) (oracle : ExecOracle)
    (buf : List DatabaseModification) :
    Except String Unit × List DriverEvent × List DatabaseModification :=
  if readOnly then (oracle sql args, [.exec sql args], buf)
  else
    match build deps ctx sql args with
    | .error e => (.error ("failed to build database modification: " ++ e), [], buf)
    | .ok mod? =>
      match oracle sql args with
      | .error e => (.error e, [.exec sql args], buf)
      | .ok _ =>
        match mod? with
        | some m => (.ok (), [.exec sql args], buf ++ [m])
        | none => (.ok (), [.exec sql args], buf)

/-- `Conn.ExecContext` with `Conn.logModification` (source `conn.go`): in
read-only mode pass through; otherwise build (a failure is the operation's
failure, nothing executes); with a record, insert it directly on the wrapped
connection before the primary statement, an insert failure being the
operation's failure with the primary statement never executed; finally execute
the primary statement.  The secondary logger invoked on insert failure is
observability only (a no-op by default). -/
def connExec {Ctx : Type} (deps : BuilderDeps Ctx) (ctx : Ctx) (readOnly : Bool)
    (sql : String) (args : List NamedValue) (oracle : ExecOracle) :
    Except String Unit × List DriverEvent :=
  if readOnly then (oracle sql args, [.exec sql args])
  else
    match build deps ctx sql args with
    | .error e => (.error ("failed to build database modification: " ++ e), [])
    | .ok none => (oracle sql args, [.exec sql args])
    | .ok (some m) =>
      match oracle auditInsertQuery (directAuditArgs m) with
      | .error e =>
        (.error ("failed to log database modification: " ++ e),
          [.exec auditInsertQuery (directAuditArgs m)])
      | .ok _ =>
        (oracle sql args,
          [.exec auditInsertQuery (directAuditArgs m), .exec sql args])

/-! ## Concrete stubs for witnesses and counterexamples -/

/-- A concrete timestamp. -/
def time0 : GoTime := ⟨2024, 1, 2, 3, 4, 5, false, 0, 0⟩

/-- Behaviour of the external parser on the concrete statements used below,
modelled at its interface boundary: PostgreSQL parses a semicolon-separated
string into the list of its statements, classifies each by its top node, and
fails on malformed text. -/
def pgParseStub : PgParse := fun sql =>
  if sql = "SELECT 1; DELETE FROM t" then some [.otherStmt, .deleteStmt]
  else if sql = "DELETE FROM t" then some [.deleteStmt]
  else if sql = "INSERT INTO temp_users (id) VALUES ($1)" then some [.insertStmt]
  else if sql = "INSERT INTO t (a) VALUES ($1)" then some [.insertStmt]
  else none

/-- Builder dependencies with successful extraction and no filters. -/
def depsStub : BuilderDeps Unit :=
  ⟨pgParseStub, fun _ => "id-1", fun _ => .ok "op-1", fun _ => .ok "ex-1", [], time0⟩

/-- Builder dependencies whose filter chain excludes the temp_ and log_
prefixes. -/
def c1Deps : BuilderDeps Unit :=
  ⟨pgParseStub, fun _ => "id-1", fun _ => .ok "op-1", fun _ => .ok "ex-1",
   [NewExcludePrefixFilter ["temp_", "log_"]], time0⟩

/-- Builder dependencies whose operator extraction fails. -/
def c5Deps : BuilderDeps Unit :=
  ⟨pgParseStub, fun _ => "id-1", fun _ => .error "operator ID not found in context",
   fun _ => .ok "ex-1", [], time0⟩

/-- An execution oracle that accepts everything. -/
def okOracle : ExecOracle := fun _ _ => .ok ()

/-- An execution oracle that rejects exactly the direct audit insert. -/
def auditFailOracle : ExecOracle := fun q _ =>
  if q = auditInsertQuery then .error "boom" else .ok ()

/-- The record `build` produces for the plain insert statement under
`depsStub` (no arguments, so interpolation leaves the text unchanged). -/
def mod4 : DatabaseModification :=
  ⟨"id-1", "op-1", "ex-1", "t", .insert, "INSERT INTO t (a) VALUES ($1)", time0⟩

/-! ## Claims about the classifier and the builder -/

/-! ## Claims about the connection decorator and the transactional buffer -/

/-- Per-step buffered record of a transactional execution: the record `build`
produces, kept only when the underlying execution succeeds. -/
def stepRecord {Ctx : Type} (deps : BuilderDeps Ctx) (ctx : Ctx) (oracle : ExecOracle)
    (st : String × List NamedValue) : Option DatabaseModification :=
  match build deps ctx st.1 st.2 with
  | .error _ => none
  | .ok mod? =>
    match oracle st.1 st.2 with
    | .error _ => none
    | .ok _ => mod?

/-- The buffer after a sequence of transactional executions. -/
def runTxBuffer {Ctx : Type} (deps : BuilderDeps Ctx) (ctx : Ctx) (oracle : ExecOracle) :
    List (String × List NamedValue) → List DatabaseModification →
    List DatabaseModification
  | [], buf => buf
  | st :: rest, buf =>
    runTxBuffer deps ctx oracle rest (txExec deps ctx false st.1 st.2 oracle buf).2.2

/-- The seven field values of one record, in column order. -/
def modValues (m : DatabaseModification) : List GoValue :=
  [.str m.id, .str m.operatorID, .str m.executionID, .str m.tableName,
   .str m.action.toGoString, .str m.sql, .timeV m.modifiedAt]

/-! ## Theorems -/

example : ShouldLog [NewExcludePrefixFilter ["temp_", "log_"]] "temp_users" = false := by decide

example : ShouldLog [NewExcludePrefixFilter ["temp_", "log_"]] "users" = true := by decide

example : ShouldLog [NewIncludePatternFilter ["user*", "order*"]] "users" = true := by decide

example : ShouldLog [NewIncludePatternFilter ["user*", "order*"]] "products" = false := by decide

example :
    InterpolateSQL "INSERT INTO t (a, b) VALUES ($1, $2)"
      [⟨"", 1, .str "u1"⟩, ⟨"", 2, .str "x"⟩] =
    "INSERT INTO t (a, b) VALUES ('u1', 'x')" := by decide

example :
    InterpolateSQL "INSERT INTO t (a, b) VALUES ($1, $2)" [⟨"", 1, .str "u1"⟩] =
    "INSERT INTO t (a, b) VALUES ('u1', ?)" := by decide

example : InterpolateSQL "SELECT $1" [] = "SELECT $1" := by decide

example : numPlaceholders (InterpolateSQL "SELECT $1" [⟨"", 1, .str "$2"⟩]) = 1 := by decide

theorem mem_phStarts {l : List Char} {i : Nat} : i ∈ phStarts l ↔ pairAt l i := by
  constructor
  · intro h
    rw [phStarts, List.mem_filter] at h
    obtain ⟨-, hp⟩ := h
    simp only [Bool.and_eq_true, decide_eq_true_eq] at hp
    refine ⟨hp.1, ?_⟩
    have h2 := hp.2
    cases hd : l[i + 1]? with
    | none => rw [hd] at h2; simp at h2
    | some d => rw [hd] at h2; exact ⟨d, rfl, by simpa using h2⟩
  · intro h
    obtain ⟨h1, d, h2, h3⟩ := h
    rw [phStarts, List.mem_filter]
    constructor
    · rw [List.mem_range]
      by_contra hge
      rw [List.getElem?_eq_none (by omega)] at h1
      exact Option.noConfusion h1
    · simp only [Bool.and_eq_true, decide_eq_true_eq]
      exact ⟨h1, by rw [h2]; simpa using h3⟩

theorem phStarts_pairwise (l : List Char) : List.Pairwise (· < ·) (phStarts l) :=
  (List.pairwise_lt_range l.length).filter _

theorem PHFree_iff_phStarts_nil {l : List Char} : PHFree l ↔ phStarts l = [] := by
  constructor
  · intro h
    rw [phStarts, List.filter_eq_nil_iff]
    intro i _ hp
    apply h i
    exact mem_phStarts.mp (by rw [phStarts, List.mem_filter]; exact ⟨by
      simp only [Bool.and_eq_true, decide_eq_true_eq] at hp
      rw [List.mem_range]
      by_contra hge
      rw [List.getElem?_eq_none (by omega)] at hp
      simp at hp, hp⟩)
  · intro h i hp
    have := mem_phStarts.mpr hp
    rw [h] at this
    exact List.not_mem_nil _ this

theorem pairAt_drop {l : List Char} {k q : Nat} : pairAt (l.drop k) q ↔ pairAt l (k + q) := by
  unfold pairAt
  rw [List.getElem?_drop, List.getElem?_drop, Nat.add_assoc]

theorem PHFree_slice (l : List Char) (a b : Nat)
    (h : ∀ p, a ≤ p → p + 1 < b → ¬ pairAt l p) :
    PHFree ((l.drop a).take (b - a)) := by
  intro q hq
  obtain ⟨h1, d, h2, h3⟩ := hq
  rw [List.getElem?_take] at h1 h2
  split at h1
  case isFalse => exact Option.noConfusion h1
  split at h2
  case isFalse => exact Option.noConfusion h2
  rename_i hqb hq1b
  rw [List.getElem?_drop] at h1 h2
  refine h (a + q) (by omega) (by omega) ⟨h1, d, ?_, h3⟩
  rw [show a + q + 1 = a + (q + 1) by omega]
  exact h2

theorem PHFree_append {a b : List Char} (ha : PHFree a) (hb : PHFree b)
    (hj : ∀ c d, a[a.length - 1]? = some c → b[0]? = some d →
      c = '$' → d.isDigit = false) :
    PHFree (a ++ b) := by
  intro i hp
  obtain ⟨h1, d, h2, h3⟩ := hp
  rcases Nat.lt_trichotomy (i + 1) a.length with hlt | heq | hgt
  · apply ha i
    rw [List.getElem?_append_left (by omega)] at h1
    rw [List.getElem?_append_left hlt] at h2
    exact ⟨h1, d, h2, h3⟩
  · have hi : i < a.length := by omega
    rw [List.getElem?_append_left hi] at h1
    rw [List.getElem?_append_right (by omega)] at h2
    have h2' : b[0]? = some d := by rw [← h2]; congr 1; omega
    have h1' : a[a.length - 1]? = some '$' := by rw [← h1]; congr 1; omega
    have := hj '$' d h1' h2' rfl
    rw [this] at h3
    exact Bool.noConfusion h3
  · apply hb (i - a.length)
    rw [List.getElem?_append_right (by omega)] at h1
    rw [List.getElem?_append_right (by omega)] at h2
    refine ⟨h1, d, ?_, h3⟩
    rw [← h2]
    congr 1
    omega

theorem takeWhile_getElem? {p : Char → Bool} :
    ∀ (xs : List Char) (q : Nat), q < (xs.takeWhile p).length →
      ∃ c, xs[q]? = some c ∧ p c = true := by
  intro xs
  induction xs with
  | nil => intro q h; simp [List.takeWhile] at h
  | cons x rest ih =>
    intro q h
    rw [List.takeWhile] at h
    cases hp : p x with
    | false => rw [hp] at h; simp at h
    | true =>
      rw [hp] at h
      simp only [List.length_cons] at h
      cases q with
      | zero => exact ⟨x, by simp, hp⟩
      | succ q0 =>
        obtain ⟨c, hc, hpc⟩ := ih q0 (by omega)
        exact ⟨c, by simpa using hc, hpc⟩

theorem digitRun_getElem? (l : List Char) (i q : Nat) (h : q < digitRunLen l i) :
    ∃ c, l[i + q]? = some c ∧ c.isDigit = true := by
  rw [digitRunLen] at h
  obtain ⟨c, hc, hd⟩ := takeWhile_getElem? _ _ h
  rw [List.getElem?_drop] at hc
  exact ⟨c, hc, hd⟩

theorem SQLValue_ne_nil (v : GoValue) : SQLValue v ≠ [] := by
  cases v <;> simp [SQLValue]

theorem SQLValue_head_not_digit (v : GoValue) :
    ∀ d, (SQLValue v)[0]? = some d → d.isDigit = false := by
  intro d h
  cases v <;> simp [SQLValue] at h <;> rw [← h] <;> decide

theorem snoc_last_getElem? (x : Char) (mid : List Char) (y : Char) :
    (x :: (mid ++ [y]))[(x :: (mid ++ [y])).length - 1]? = some y := by
  have hlen : (x :: (mid ++ [y])).length - 1 = mid.length + 1 := by
    simp
  rw [hlen, List.getElem?_cons_succ, List.getElem?_append_right (Nat.le_refl _)]
  simp

theorem SQLValue_last_not_dollar (v : GoValue) :
    ∀ c, (SQLValue v)[(SQLValue v).length - 1]? = some c → c ≠ '$' := by
  intro c h
  cases v with
  | null =>
    simp only [SQLValue] at h
    rw [show ("NULL".data.length - 1) = 3 by decide] at h
    simp only [show ("NULL".data[3]? : Option Char) = some 'L' by decide,
      Option.some.injEq] at h
    rw [← h]
    decide
  | str s =>
    rw [SQLValue, snoc_last_getElem?] at h
    rw [← Option.some.injEq] at h
    simp at h
    rw [← h]
    decide
  | bytes bs =>
    rw [SQLValue, snoc_last_getElem?] at h
    simp at h
    rw [← h]
    decide
  | timeV t =>
    rw [SQLValue, snoc_last_getElem?] at h
    simp at h
    rw [← h]
    decide
  | stringer s =>
    rw [SQLValue, snoc_last_getElem?] at h
    simp at h
    rw [← h]
    decide
  | other r =>
    rw [SQLValue, snoc_last_getElem?] at h
    simp at h
    rw [← h]
    decide

theorem PHFree_qmark : PHFree ['?'] := by
  rw [PHFree_iff_phStarts_nil]
  decide

theorem PHFree_combine {seg lit rest : List Char}
    (hseg : PHFree seg) (hlitfree : PHFree lit) (hrest : PHFree rest)
    (hlitne : lit ≠ [])
    (hlithead : ∀ d, lit[0]? = some d → d.isDigit = false)
    (hlitlast : ∀ c, lit[lit.length - 1]? = some c → c ≠ '$') :
    PHFree (seg ++ lit ++ rest) := by
  rw [List.append_assoc]
  apply PHFree_append hseg
  · apply PHFree_append hlitfree hrest
    intro c d h1 _ hc
    exact absurd hc (hlitlast c h1)
  · intro c d h1 h2 hc
    rw [List.getElem?_append_left (by
      cases lit with
      | nil => exact absurd rfl hlitne
      | cons x xs => simp)] at h2
    exact hlithead d h2

theorem interpLoop_PHFree (l : List Char) (args : List NamedValue)
    (hargs : ∀ a ∈ args, PHFree (SQLValue a.value)) :
    ∀ (starts : List Nat) (last i : Nat),
      (∀ j ∈ starts, pairAt l j ∧ last ≤ j) →
      (∀ p, last ≤ p → pairAt l p → p ∈ starts) →
      List.Pairwise (· < ·) starts →
      PHFree (interpLoop l args
        (starts.map fun j => (j, j + 1 + digitRunLen l (j + 1))) last i) := by
  intro starts
  induction starts with
  | nil =>
    intro last i _ hcomp _
    simp only [List.map_nil, interpLoop]
    intro q hq
    rw [pairAt_drop] at hq
    exact absurd (hcomp _ (Nat.le_add_right _ _) hq) (List.not_mem_nil _)
  | cons s0 rest ih =>
    intro last i hmem hcomp hpw
    simp only [List.map_cons, interpLoop]
    have hpair0 : pairAt l s0 := (hmem s0 (List.mem_cons_self _ _)).1
    have hlast0 : last ≤ s0 := (hmem s0 (List.mem_cons_self _ _)).2
    have hrest_gt : ∀ j ∈ rest, s0 < j := fun j hj => (List.pairwise_cons.mp hpw).1 j hj
    have hseg : PHFree ((l.drop last).take (s0 - last)) := by
      apply PHFree_slice
      intro p hp1 hp2 hpa
      rcases List.mem_cons.mp (hcomp p hp1 hpa) with h | h
      · omega
      · have := hrest_gt p h
        omega
    have hrec : PHFree (interpLoop l args
        (rest.map fun j => (j, j + 1 + digitRunLen l (j + 1)))
        (s0 + 1 + digitRunLen l (s0 + 1)) (i + 1)) := by
      apply ih
      · intro j hj
        refine ⟨(hmem j (List.mem_cons_of_mem _ hj)).1, ?_⟩
        by_contra hjlt
        push_neg at hjlt
        have hgt := hrest_gt j hj
        obtain ⟨c, hc, hcd⟩ := digitRun_getElem? l (s0 + 1) (j - s0 - 1) (by omega)
        rw [show s0 + 1 + (j - s0 - 1) = j by omega] at hc
        have hdollar := ((hmem j (List.mem_cons_of_mem _ hj)).1).1
        rw [hc] at hdollar
        simp only [Option.some.injEq] at hdollar
        rw [hdollar] at hcd
        exact absurd hcd (by decide)
      · intro p hp hpa
        rcases List.mem_cons.mp (hcomp p (by omega) hpa) with h | h
        · omega
        · exact h
      · exact hpw.of_cons
    cases heq : args[i]? with
    | some a =>
      exact PHFree_combine hseg (hargs a (List.getElem?_mem heq)) hrec
        (SQLValue_ne_nil _) (SQLValue_head_not_digit _) (SQLValue_last_not_dollar _)
    | none =>
      refine PHFree_combine hseg PHFree_qmark hrec (by simp) ?_ ?_
      · intro d h
        simp only [List.getElem?_cons_zero, Option.some.injEq] at h
        rw [← h]
        decide
      · intro c h
        rw [show ((['?'] : List Char).length - 1) = 0 from rfl] at h
        simp only [List.getElem?_cons_zero, Option.some.injEq] at h
        rw [← h]
        decide

theorem InterpolateSQL_PHFree (query : String) (args : List NamedValue)
    (hne : args ≠ []) (hargs : ∀ a ∈ args, PHFree (SQLValue a.value)) :
    numPlaceholders (InterpolateSQL query args) = 0 := by
  simp only [InterpolateSQL]
  by_cases hms : (phMatches query.data).isEmpty || args.isEmpty
  · rw [if_pos hms]
    have hargsne : args.isEmpty = false := by
      cases args with
      | nil => exact absurd rfl hne
      | cons a as => rfl
    rw [hargsne, Bool.or_false] at hms
    rw [phMatches, List.isEmpty_iff, List.map_eq_nil_iff] at hms
    rw [numPlaceholders, hms]
    rfl
  · rw [if_neg hms]
    rw [numPlaceholders]
    have hdata : (String.mk (interpLoop query.data args (phMatches query.data) 0 0)).data
        = interpLoop query.data args (phMatches query.data) 0 0 := rfl
    rw [hdata, List.length_eq_zero]
    rw [← PHFree_iff_phStarts_nil]
    rw [phMatches]
    exact interpLoop_PHFree query.data args hargs (phStarts query.data) 0 0
      (fun j hj => ⟨mem_phStarts.mp hj, Nat.zero_le _⟩)
      (fun p _ hp => mem_phStarts.mpr hp)
      (phStarts_pairwise _)

theorem interpLoop_eq_interleaveSpec (l : List Char) (args : List NamedValue) :
    ∀ (starts : List Nat) (last i : Nat),
      interpLoop l args (starts.map fun j => (j, j + 1 + digitRunLen l (j + 1))) last i =
        interleaveSpec l starts last ((args.drop i).map fun a => SQLValue a.value) := by
  intro starts
  induction starts with
  | nil => intro last i; rfl
  | cons s0 rest ih =>
    intro last i
    simp only [List.map_cons, interpLoop, interleaveSpec]
    have hhead : ((args.drop i).map fun a => SQLValue a.value).headD ['?'] =
        (match args[i]? with
         | some a => SQLValue a.value
         | none => ['?']) := by
      rw [List.headD_eq_head?_getD, List.head?_map, List.head?_drop]
      cases args[i]? <;> rfl
    have htail : ((args.drop i).map fun a => SQLValue a.value).tail =
        ((args.drop (i + 1)).map fun a => SQLValue a.value) := by
      rw [← List.map_tail, List.tail_drop]
    rw [hhead, htail, ih]

/-- C6, counterexample to the claim as stated: interpolating the one-placeholder
statement `SELECT $1` with the single bound text argument `$2` yields a text
that still contains one placeholder token, because the literal rendering of the
argument itself carries a dollar-digit sequence. -/
theorem C6_counterexample :
    numPlaceholders "SELECT $1" = 1 ∧
    ([⟨"", 1, GoValue.str "$2"⟩] : List NamedValue).length = 1 ∧
    (InterpolateSQL "SELECT $1" [⟨"", 1, GoValue.str "$2"⟩]).data =
      "SELECT ".data ++ [squote, '$', '2', squote] ∧
    numPlaceholders (InterpolateSQL "SELECT $1" [⟨"", 1, GoValue.str "$2"⟩]) = 1 :=
  ⟨by decide, by decide, by decide, by decide⟩

/-- C6 (amended): for a nonempty argument list, the interpolated text is the
source text with each positional placeholder, in order of occurrence, replaced
by the literal rendering of the correspondingly ranked bound argument, and each
placeholder beyond the argument count replaced by a literal question-mark
placeholder marker, never an error; and when the statement has exactly as many
placeholders as there are arguments and no rendered literal itself contains a
placeholder token, the result contains zero placeholder tokens (literal values
thus appear in placeholder order, with embedded single quotes doubled for text
arguments by the escaping of the renderer). -/
theorem C6_interpolation (query : String) (args : List NamedValue) (hne : args ≠ []) :
    (InterpolateSQL query args).data =
      interleaveSpec query.data (phStarts query.data) 0
        (args.map fun a => SQLValue a.value) ∧
    (numPlaceholders query = args.length →
      (∀ a ∈ args, PHFree (SQLValue a.value)) →
      numPlaceholders (InterpolateSQL query args) = 0) := by
  constructor
  · simp only [InterpolateSQL]
    by_cases hms : (phMatches query.data).isEmpty || args.isEmpty
    · rw [if_pos hms]
      have hargsne : args.isEmpty = false := by
        cases args with
        | nil => exact absurd rfl hne
        | cons a as => rfl
      rw [hargsne, Bool.or_false, phMatches, List.isEmpty_iff, List.map_eq_nil_iff] at hms
      rw [hms, interleaveSpec, List.drop_zero]
    · rw [if_neg hms]
      have h := interpLoop_eq_interleaveSpec query.data args (phStarts query.data) 0 0
      rw [List.drop_zero] at h
      rw [phMatches]
      exact h
  · intro _ hargs
    exact InterpolateSQL_PHFree query args hne hargs

/-- Witness for C6 at the concrete two-placeholder insert statement with two
text arguments. -/
theorem C6_interpolation_witness :
    (InterpolateSQL "INSERT INTO t (a, b) VALUES ($1, $2)"
        [⟨"", 1, GoValue.str "u1"⟩, ⟨"", 2, GoValue.str "x"⟩]).data =
      interleaveSpec "INSERT INTO t (a, b) VALUES ($1, $2)".data
        (phStarts "INSERT INTO t (a, b) VALUES ($1, $2)".data) 0
        (([⟨"", 1, GoValue.str "u1"⟩, ⟨"", 2, GoValue.str "x"⟩] : List NamedValue).map
          fun a => SQLValue a.value) ∧
    numPlaceholders (InterpolateSQL "INSERT INTO t (a, b) VALUES ($1, $2)"
        [⟨"", 1, GoValue.str "u1"⟩, ⟨"", 2, GoValue.str "x"⟩]) = 0 := by
  have h := C6_interpolation "INSERT INTO t (a, b) VALUES ($1, $2)"
    [⟨"", 1, GoValue.str "u1"⟩, ⟨"", 2, GoValue.str "x"⟩] (by decide)
  refine ⟨h.1, h.2 (by decide) ?_⟩
  intro a ha
  rw [PHFree_iff_phStarts_nil]
  rcases List.mem_cons.mp ha with rfl | ha2
  · decide
  rcases List.mem_cons.mp ha2 with rfl | ha3
  · decide
  exact absurd ha3 (List.not_mem_nil _)

/-- C9: `ShouldLog` of a chain is the conjunction of its member predicates and
the empty chain accepts everything; the exclude-by-prefix constructor rejects
exactly the names starting with one of its prefixes; the include-by-pattern
constructor accepts exactly the names glob-matching one of its patterns; and on
the spec's concrete examples: prefixes temp_/log_ reject temp_users and accept
users, patterns user*/order* accept users and reject products. -/
theorem C9_filters :
    (∀ (filters : TableFilters) (t : String),
      ShouldLog filters t = true ↔ ∀ f ∈ filters, f t = true) ∧
    (∀ t : String, ShouldLog [] t = true) ∧
    (∀ (prefixes : List String) (t : String),
      NewExcludePrefixFilter prefixes t = false ↔
        ∃ p ∈ prefixes, p.data.isPrefixOf t.data = true) ∧
    (∀ (patterns : List String) (t : String),
      NewIncludePatternFilter patterns t = true ↔
        ∃ p ∈ patterns, filepathMatch p t = true) ∧
    ShouldLog [NewExcludePrefixFilter ["temp_", "log_"]] "temp_users" = false ∧
    ShouldLog [NewExcludePrefixFilter ["temp_", "log_"]] "users" = true ∧
    ShouldLog [NewIncludePatternFilter ["user*", "order*"]] "users" = true ∧
    ShouldLog [NewIncludePatternFilter ["user*", "order*"]] "products" = false := by
  refine ⟨?_, ?_, ?_, ?_, by decide, by decide, by decide, by decide⟩
  · intro filters t
    rw [ShouldLog, List.all_eq_true]
  · intro t
    rfl
  · intro prefixes t
    rw [NewExcludePrefixFilter]
    rw [Bool.not_eq_false', List.any_eq_true]
  · intro patterns t
    rw [NewIncludePatternFilter]
    rw [List.any_eq_true]

example : parseTableAction "INSERT INTO users (id) VALUES ($1)" =
    .ok ⟨"users", .insert⟩ := by decide

example : parseTableAction "UPDATE orders SET a = 1" = .ok ⟨"orders", .update⟩ := by decide

example : parseTableAction "DELETE FROM logs WHERE a = 1" = .ok ⟨"logs", .delete⟩ := by decide

example : findInsertTable "insert into t2 values (1)" = some "t2" := by decide

/-- C10: the extractor tries the insert pattern first, then update, then
delete, searching anywhere in the text rather than only at the leading verb:
whenever the insert pattern matches somewhere, the result is the insert action
with the insert target table even if an update pattern also occurs (as in an
insert with an ON CONFLICT DO UPDATE clause); the error branch is reached
exactly when none of the three patterns occurs anywhere. -/
theorem C10_parseTableAction :
    (∀ (sql t : String), findInsertTable sql = some t →
      parseTableAction sql = .ok ⟨t, .insert⟩) ∧
    (∀ sql : String, (∃ e, parseTableAction sql = .error e) ↔
      findInsertTable sql = none ∧ findUpdateTable sql = none ∧
        findDeleteTable sql = none) ∧
    parseTableAction "INSERT INTO users (id) VALUES (1) ON CONFLICT (id) DO UPDATE SET id = 1" =
      .ok ⟨"users", .insert⟩ ∧
    findUpdateTable "INSERT INTO users (id) VALUES (1) ON CONFLICT (id) DO UPDATE SET id = 1" =
      some "SET" ∧
    parseTableAction "EXPLAIN UPDATE t SET x = 1" = .ok ⟨"t", .update⟩ ∧
    parseTableAction "SELECT 1" = .error "could not parse action from SQL: SELECT 1" := by
  refine ⟨?_, ?_, by decide, by decide, by decide, by decide⟩
  · intro sql t h
    rw [parseTableAction, h]
  · intro sql
    constructor
    · rintro ⟨e, he⟩
      rw [parseTableAction] at he
      cases h1 : findInsertTable sql with
      | some t => rw [h1] at he; exact Except.noConfusion he
      | none =>
        rw [h1] at he
        cases h2 : findUpdateTable sql with
        | some t => rw [h2] at he; exact Except.noConfusion he
        | none =>
          rw [h2] at he
          cases h3 : findDeleteTable sql with
          | some t => rw [h3] at he; exact Except.noConfusion he
          | none => exact ⟨rfl, rfl, rfl⟩
    · rintro ⟨h1, h2, h3⟩
      exact ⟨"could not parse action from SQL: " ++ sql, by
        rw [parseTableAction, h1, h2, h3]⟩

/-- Witness for C10: the insert-priority implication applied at a concrete
statement. -/
theorem C10_witness :
    parseTableAction "insert into t2 values (1)" = .ok ⟨"t2", .insert⟩ :=
  C10_parseTableAction.1 "insert into t2 values (1)" "t2" (by decide)

/-- C7, counterexample: on the two-statement text `SELECT 1; DELETE FROM t`
the direct-parse variant accepts (the parse loop finds the delete node) while
the quick-check variant rejects (the stripped text starts with SELECT, failing
the quick prefix check), so the pre-check does change the classification
outcome. -/
theorem C7_counterexample :
    isDMLDirect pgParseStub "SELECT 1; DELETE FROM t" = true ∧
    isDMLQuick pgParseStub "SELECT 1; DELETE FROM t" = false :=
  ⟨by decide, by decide⟩

/-- C7 (amended): the quick prefix pre-check only ever narrows the
classification: for every parser behaviour and every SQL string, whenever the
quick-check variant accepts, the direct-parse variant accepts; the converse
fails (see the counterexample), so the two variants are not equivalent. -/
theorem C7_quick_refines_direct (parse : PgParse) (sql : String)
    (h : isDMLQuick parse sql = true) : isDMLDirect parse sql = true := by
  simp only [isDMLQuick] at h
  split at h
  · exact Bool.noConfusion h
  · split at h
    · exact Bool.noConfusion h
    · rw [isDMLDirect]
      exact h

/-- Witness for C7: the refinement applied to a quick-accepted delete. -/
theorem C7_witness : isDMLDirect pgParseStub "DELETE FROM t" = true :=
  C7_quick_refines_direct pgParseStub "DELETE FROM t" (by decide)

/-- C8: whenever the external parser fails on a statement, both classifier
variants report not-modifying and `build` returns no record and no error —
classification ambiguity is silent. -/
theorem C8_unparseable_silent {Ctx : Type} (deps : BuilderDeps Ctx) (ctx : Ctx)
    (sql : String) (args : List NamedValue) (h : deps.parse sql = none) :
    isDMLDirect deps.parse sql = false ∧ isDMLQuick deps.parse sql = false ∧
    build deps ctx sql args = .ok none := by
  have hq : isDMLQuick deps.parse sql = false := by
    simp only [isDMLQuick, h]
    split
    · rfl
    · split
      · rfl
      · rfl
  refine ⟨by rw [isDMLDirect, h], hq, ?_⟩
  simp [build, hq]

/-- Witness for C8 at a malformed insert-like statement the stub parser
rejects. -/
theorem C8_witness :
    isDMLDirect pgParseStub "INSERT INTO (((" = false ∧
    isDMLQuick pgParseStub "INSERT INTO (((" = false ∧
    build depsStub () "INSERT INTO (((" [] = .ok none :=
  C8_unparseable_silent depsStub () "INSERT INTO (((" [] (by decide)

/-- C1: the claim fails on the code and the intent of the source's own
documentation and of the dead `isFiltered` helper is that it should hold:
`build` never consults the table filter chain — its result is invariant under
any change of the chain — and it produces a record for `temp_users` even
though the configured exclude-prefix chain rejects that table. -/
theorem C1_filter_never_consulted :
    (∀ (Ctx : Type) (parse : PgParse) (idg : Unit → String)
       (ope exe : Ctx → Except String String) (fs1 fs2 : TableFilters)
       (now : GoTime) (ctx : Ctx) (sql : String) (args : List NamedValue),
      build ⟨parse, idg, ope, exe, fs1, now⟩ ctx sql args =
        build ⟨parse, idg, ope, exe, fs2, now⟩ ctx sql args) ∧
    isFiltered c1Deps "temp_users" = false ∧
    build c1Deps () "INSERT INTO temp_users (id) VALUES ($1)" [] =
      .ok (some ⟨"id-1", "op-1", "ex-1", "temp_users", .insert,
        "INSERT INTO temp_users (id) VALUES ($1)", time0⟩) := by
  refine ⟨?_, by decide, by decide⟩
  intro Ctx parse idg ope exe fs1 fs2 now ctx sql args
  rfl

/-- C4: on the non-transactional path, a build failure is the operation's
failure with nothing executed; with a built record, the direct audit insert is
issued first, its failure is the operation's failure with the primary
statement never executed, and on its success the audit insert precedes the
primary statement — strict fail-closed semantics. -/
theorem C4_direct_execution {Ctx : Type} (deps : BuilderDeps Ctx) (ctx : Ctx)
    (sql : String) (args : List NamedValue) (oracle : ExecOracle) :
    (∀ e, build deps ctx sql args = .error e →
      connExec deps ctx false sql args oracle =
        (.error ("failed to build database modification: " ++ e), [])) ∧
    (∀ m e, build deps ctx sql args = .ok (some m) →
      oracle auditInsertQuery (directAuditArgs m) = .error e →
      connExec deps ctx false sql args oracle =
        (.error ("failed to log database modification: " ++ e),
          [.exec auditInsertQuery (directAuditArgs m)])) ∧
    (∀ m, build deps ctx sql args = .ok (some m) →
      oracle auditInsertQuery (directAuditArgs m) = .ok () →
      connExec deps ctx false sql args oracle =
        (oracle sql args,
          [.exec auditInsertQuery (directAuditArgs m), .exec sql args])) := by
  refine ⟨?_, ?_, ?_⟩
  · intro e h
    simp [connExec, h]
  · intro m e hb ho
    simp [connExec, hb, ho]
  · intro m hb ho
    simp [connExec, hb, ho]

/-- Witness for C4: with a record built for the plain insert and an oracle
failing the audit insert, the operation fails and the primary statement is
never executed. -/
theorem C4_witness :
    connExec depsStub () false "INSERT INTO t (a) VALUES ($1)" [] auditFailOracle =
      (.error "failed to log database modification: boom",
        [.exec auditInsertQuery (directAuditArgs mod4)]) :=
  (C4_direct_execution depsStub () "INSERT INTO t (a) VALUES ($1)" [] auditFailOracle).2.1
    mod4 "boom" (by decide) (by decide)

/-- C5, counterexample to the claim as stated: the source builds the record
before executing the underlying statement, so a failing operator extraction on
a modifying statement aborts the operation with no execution event at all —
the underlying statement is not executed first. -/
theorem C5_counterexample :
    txExec c5Deps () false "INSERT INTO t (a) VALUES ($1)" [] okOracle [] =
      (.error ("failed to build database modification: " ++
        "failed to extract operator ID: operator ID not found in context"), [], []) := by
  decide

/-- C5 (amended): inside a transaction the record is built before execution
and a build failure aborts the operation with the underlying statement never
executed; otherwise the underlying statement is executed and only on its
success is the built record appended; a failed execution appends nothing; and
over any sequence of statements the final buffer is the initial buffer
followed by the records of the successfully executed modifying statements in
execution order. -/
theorem C5_tx_execution {Ctx : Type} (deps : BuilderDeps Ctx) (ctx : Ctx)
    (sql : String) (args : List NamedValue) (oracle : ExecOracle)
    (buf : List DatabaseModification) :
    (∀ e, build deps ctx sql args = .error e →
      txExec deps ctx false sql args oracle buf =
        (.error ("failed to build database modification: " ++ e), [], buf)) ∧
    (∀ mod? e, build deps ctx sql args = .ok mod? → oracle sql args = .error e →
      txExec deps ctx false sql args oracle buf = (.error e, [.exec sql args], buf)) ∧
    (∀ mod?, build deps ctx sql args = .ok mod? → oracle sql args = .ok () →
      txExec deps ctx false sql args oracle buf =
        (.ok (), [.exec sql args], buf ++ mod?.toList)) ∧
    (∀ steps : List (String × List NamedValue),
      runTxBuffer deps ctx oracle steps buf =
        buf ++ steps.filterMap (stepRecord deps ctx oracle)) := by
  refine ⟨?_, ?_, ?_, ?_⟩
  · intro e h
    simp [txExec, h]
  · intro mod? e hb ho
    simp [txExec, hb, ho]
  · intro mod? hb ho
    cases mod? with
    | none => simp [txExec, hb, ho]
    | some m => simp [txExec, hb, ho]
  · intro steps
    induction steps generalizing buf with
    | nil => simp [runTxBuffer]
    | cons st rest ih =>
      rw [runTxBuffer, ih, List.filterMap_cons]
      have hbuf : (txExec deps ctx false st.1 st.2 oracle buf).2.2 =
          buf ++ (stepRecord deps ctx oracle st).toList := by
        cases hb : build deps ctx st.1 st.2 with
        | error e => simp [txExec, stepRecord, hb]
        | ok mod? =>
          cases ho : oracle st.1 st.2 with
          | error e => simp [txExec, stepRecord, hb, ho]
          | ok u =>
            cases mod? with
            | none => simp [txExec, stepRecord, hb, ho]
            | some m => simp [txExec, stepRecord, hb, ho]
      rw [hbuf]
      cases hsr : stepRecord deps ctx oracle st with
      | none => simp
      | some m => simp

/-- Witness for C5 at the plain insert statement with an accepting oracle:
the statement executes and the built record is appended. -/
theorem C5_witness :
    txExec depsStub () false "INSERT INTO t (a) VALUES ($1)" [] okOracle [] =
      (.ok (), [.exec "INSERT INTO t (a) VALUES ($1)" []], [mod4]) := by
  have h := (C5_tx_execution depsStub () "INSERT INTO t (a) VALUES ($1)" [] okOracle []).2.2.1
    (some mod4) (by decide) (by decide)
  simpa using h

theorem enumFrom_flatMap_snd {α β : Type} (g : α → List β) :
    ∀ (l : List α) (n : Nat),
      (List.enumFrom n l).flatMap (fun p => g p.2) = l.flatMap g := by
  intro l
  induction l with
  | nil => intro n; rfl
  | cons a rest ih =>
    intro n
    simp only [List.enumFrom, List.flatMap_cons, ih]

theorem modBatchArgs_values (i : Nat) (m : DatabaseModification) :
    (modBatchArgs i m).map NamedValue.value = modValues m := rfl

theorem batchArgs_values (mods : List DatabaseModification) :
    (batchArgs mods).map NamedValue.value = mods.flatMap modValues := by
  rw [batchArgs, List.map_flatMap, List.enum]
  simp only [modBatchArgs_values]
  exact enumFrom_flatMap_snd modValues mods 0

/-- C2: commit drains the buffer (the call leaves it empty); an empty buffer
goes straight to the wrapped commit; a non-empty buffer issues exactly one
batched insert — whose argument list carries all buffered records in buffer
order — on the same wrapped transaction before the wrapped commit; and when
that insert fails, the wrapped transaction is rolled back instead of
committed and a combined error naming the audit-write failure (and, when it
also fails, the rollback failure) is surfaced, so no event of the failing run
is a commit. -/
theorem C2_commit (buf : List DatabaseModification) (oracle : ExecOracle)
    (commitRes rollbackRes : Except String Unit) :
    (buf = [] → txCommit buf none oracle commitRes rollbackRes =
      (commitRes, [.commit], [])) ∧
    (buf ≠ [] → oracle (batchQuery buf) (batchArgs buf) = .ok () →
      txCommit buf none oracle commitRes rollbackRes =
        (commitRes, [.exec (batchQuery buf) (batchArgs buf), .commit], [])) ∧
    (buf ≠ [] → ∀ e, oracle (batchQuery buf) (batchArgs buf) = .error e →
      txCommit buf none oracle commitRes rollbackRes =
        (.error (match rollbackRes with
          | .ok _ => "failed to flush logs in transaction: " ++
              ("failed to batch insert database modifications: " ++ e)
          | .error rbe => "failed to rollback after audriver logging error: " ++ rbe ++
              " (original error: " ++
              ("failed to batch insert database modifications: " ++ e) ++ ")"),
         [.exec (batchQuery buf) (batchArgs buf), .rollback], [])) ∧
    ((batchArgs buf).map NamedValue.value = buf.flatMap modValues) := by
  refine ⟨?_, ?_, ?_, batchArgs_values buf⟩
  · intro h
    subst h
    rfl
  · intro hne ho
    have hbe : buf.isEmpty = false := by
      cases buf with
      | nil => exact absurd rfl hne
      | cons a as => rfl
    simp [txCommit, txLog, hbe, ho]
  · intro hne e ho
    have hbe : buf.isEmpty = false := by
      cases buf with
      | nil => exact absurd rfl hne
      | cons a as => rfl
    cases rollbackRes with
    | ok u => simp [txCommit, txLog, hbe, ho]
    | error rbe => simp [txCommit, txLog, hbe, ho]

/-- Witness for C2 at a one-record buffer: the batched insert is issued and
then the wrapped commit. -/
theorem C2_witness :
    txCommit [mod4] none okOracle (.ok ()) (.ok ()) =
      (.ok (), [.exec (batchQuery [mod4]) (batchArgs [mod4]), .commit], []) :=
  (C2_commit [mod4] okOracle (.ok ()) (.ok ())).2.1 (by decide) (by decide)

/-- C3: rollback drains and discards the buffer unconditionally (the call
leaves it empty and its only wrapped-transaction event is the rollback, so no
audit write is ever attempted for a rolled-back transaction) and returns the
wrapped rollback's result; moreover a statement executed inside an open
transaction issues at most its own execution event, so buffered records have
no write attempt before commit is invoked. -/
theorem C3_rollback_discards :
    (∀ (buf : List DatabaseModification) (rollbackRes : Except String Unit),
      txRollback buf rollbackRes = (rollbackRes, [.rollback], [])) ∧
    (∀ (Ctx : Type) (deps : BuilderDeps Ctx) (ctx : Ctx) (ro : Bool) (sql : String)
       (args : List NamedValue) (oracle : ExecOracle) (buf : List DatabaseModification),
      (txExec deps ctx ro sql args oracle buf).2.1 = [] ∨
      (txExec deps ctx ro sql args oracle buf).2.1 = [.exec sql args]) := by
  refine ⟨fun _ _ => rfl, ?_⟩
  intro Ctx deps ctx ro sql args oracle buf
  cases ro with
  | true =>
    right
    rfl
  | false =>
    cases hb : build deps ctx sql args with
    | error e =>
      left
      simp [txExec, hb]
    | ok mod? =>
      cases ho : oracle sql args with
      | error e =>
        right
        simp [txExec, hb, ho]
      | ok u =>
        cases mod? with
        | none =>
          right
          simp [txExec, hb, ho]
        | some m =>
          right
          simp [txExec, hb, ho]
